import Mathlib

/-!
Verification of the slice-structure detection and normalization pipeline of
`src/server/utils/dicomHelper.py` against its specification.

Shallow embedding conventions:
* numpy integer arrays are lists of `Int` values; `astype(np.uint8)` on an
  integer array wraps modulo 256, modelled by `Int.emod _ 256`;
* float64 arithmetic in the min-max stretch and in the confidence score is
  modelled exactly (rational arithmetic), with the final `astype(np.uint8)`
  of the nonnegative stretched value as truncation toward zero (floor);
* pydicom attribute presence (`hasattr` / `getattr`) is modelled with
  `Option`; the external image encoder (PIL + base64) is a function
  parameter returning `Option String` where `none` models an encoding
  failure (`convert_to_image` returning `None`);
* a Python exception that escapes to a `try` block is modelled by the
  result the corresponding `except` branch returns.
-/

namespace DicomHelper

/-- Slice topology classifications produced by `detect_slice_count`
(dicomHelper.py lines 158, 165, 172, 178, 184, 190, 209, 214). -/
inductive SliceType where
  | single_slice
  | multi_frame_3d
  | multi_frame_4d
  | multi_frame_sequence
  | multi_frame_tagged
  | unknown
deriving DecidableEq

/-- The dataset tag evidence read by `detect_slice_count` and
`calculate_detection_confidence`.  A field is `none` when `hasattr` is
false on the pydicom dataset.  `per_frame_functional_groups` records the
length of the `PerFrameFunctionalGroupsSequence` when present. -/
structure DatasetTags where
  number_of_frames : Option Int := none
  per_frame_functional_groups : Option Nat := none
  images_in_acquisition : Option Int := none
  number_of_slices : Option Int := none
  cardiac_number_of_images : Option Int := none
deriving DecidableEq

/-- A 2-D integer sample array (one slice). -/
abbrev Mat := List (List Int)

/-- The pixel buffer delivered by `ds.pixel_array`.  The spec data model
(section 3) fixes the dimensionality to n in 2..4. -/
inductive PixelArray where
  | d2 : Mat → PixelArray
  | d3 : List Mat → PixelArray
  | d4 : List (List Mat) → PixelArray
deriving DecidableEq

/-- `pixel_array.shape` for a rectangular buffer: the outer lengths along
each axis (inner axes read off the first element, as numpy arrays are
rectangular). -/
def PixelArray.shape : PixelArray → List Nat
  | .d2 a => [a.length, (a.headD []).length]
  | .d3 a => [a.length, (a.headD []).length, ((a.headD []).headD []).length]
  | .d4 a => [a.length, (a.headD []).length, ((a.headD []).headD []).length,
      (((a.headD []).headD []).headD []).length]

/-- An array of arbitrary rank as handed to `convert_to_image`
(`PIL.Image.fromarray` only accepts the 2-D case in mode L). -/
inductive NDData where
  | d1 : List Int → NDData
  | d2 : Mat → NDData
  | d3 : List Mat → NDData
  | d4 : List (List Mat) → NDData
deriving DecidableEq

/-- The whole pixel buffer viewed as an n-d array (the `single_slice`
branch of the extraction loop passes the entire buffer to
`convert_to_image`, line 112). -/
def PixelArray.toND : PixelArray → NDData
  | .d2 a => .d2 a
  | .d3 a => .d3 a
  | .d4 a => .d4 a

/-- All samples of a 2-D array in row-major order. -/
def flatSamples (a : Mat) : List Int := a.flatten

/-- `pixel_array.max()` over all samples (meaningful for a nonempty
array; numpy raises on an empty one, which the call sites guard). -/
def arrMax (a : Mat) : Int :=
  match flatSamples a with
  | [] => 0
  | x :: xs => xs.foldl max x

/-- `pixel_array.min()` over all samples. -/
def arrMin (a : Mat) : Int :=
  match flatSamples a with
  | [] => 0
  | x :: xs => xs.foldl min x

/-- The normalization step of `convert_to_image` (lines 302-310) and of
`convert_dicom_to_png_file` (lines 373-379), for non-uint8 integer input:
if `pixel_array.max() > 255` the array is min-max stretched,
`((x - min) / (max - min) * 255).astype(np.uint8)`, modelled as the floor
of the exact rational value (the value is nonnegative, so the C truncation
of the float64 result is its floor); otherwise `astype(np.uint8)` wraps
each sample modulo 256.  A uint8-dtype input skips the branch in the
source; its values lie in [0,255], where the modulo branch is the
identity, so the model agrees.  For a flat array with values above 255 the
source computes `0.0/0.0` (NaN, cast platform-defined, 0 on x86); the
model returns 0 there via the Lean convention for division by zero. -/
def normalize_pixels (a : Mat) : Mat :=
  let mx := arrMax a
  let mn := arrMin a
  if 255 < mx then
    a.map (fun row => row.map (fun x => (x - mn) * 255 / (mx - mn)))
  else
    a.map (fun row => row.map (fun x => x % 256))

/-- `convert_to_image` (lines 294-324), parametrized by the external
image encoder (PIL save + base64, spec section 6 ImageEncoder).  Returns
`none` when the slice cannot be rendered: a non-2-D array makes
`Image.fromarray(..., mode=L)` raise, and an empty array makes
`pixel_array.max()` (or `fromarray`) raise; both are caught by the
function-level `try` and yield `None` in the source. -/
def convert_to_image (encode : Mat → Option String) : NDData → Option String
  | .d2 a => if flatSamples a = [] then none else encode (normalize_pixels a)
  | _ => none

/-- Truthiness test `hasattr(ds, NumberOfFrames) and ds.NumberOfFrames`
(line 162): present with a nonzero integer value. -/
def nofTruthy (tags : DatasetTags) : Bool :=
  match tags.number_of_frames with
  | some n => n != 0
  | none => false

/-- `hasattr(dicom_dataset, NumberOfFrames)` alone (line 247). -/
def nofPresent (tags : DatasetTags) : Bool :=
  tags.number_of_frames.isSome

/-- Python `max` over the nonempty slice-indicator list (line 207). -/
def maxIndicators : List Int → Int
  | [] => 1
  | x :: xs => xs.foldl max x

/-- Outcome of the rule-selection part of `detect_slice_count`
(lines 156-214), before the buffer-bound validation. -/
structure Selection where
  total_slices : Int
  detection_method : String
  slice_type : SliceType
deriving DecidableEq

/-- The decision chain of `detect_slice_count` (lines 161-214): the
NumberOfFrames tag, then the 4-D / 3-D / 2-D shape analyses, then the
per-frame functional groups sequence, then the tag heuristics, then the
single-slice fallback. -/
def detect_selection (shape : List Nat) (tags : DatasetTags) : Selection :=
  if nofTruthy tags then
    { total_slices := tags.number_of_frames.getD 0,
      detection_method := "number_of_frames_tag",
      slice_type := if shape.length = 3 then .multi_frame_3d else .multi_frame_sequence }
  else if shape.length = 4 then
    { total_slices := ((if shape.headD 0 < shape.getD 1 0 then shape.getD 1 0
        else shape.headD 0 : Nat) : Int),
      detection_method := "4d_array_analysis",
      slice_type := .multi_frame_4d }
  else if shape.length = 3 then
    { total_slices := (shape.headD 0 : Int),
      detection_method := "3d_array_analysis",
      slice_type := .multi_frame_3d }
  else if shape.length = 2 then
    { total_slices := 1,
      detection_method := "2d_array_single_slice",
      slice_type := .single_slice }
  else if tags.per_frame_functional_groups.isSome then
    { total_slices := (tags.per_frame_functional_groups.getD 0 : Int),
      detection_method := "per_frame_functional_groups",
      slice_type := .multi_frame_sequence }
  else
    let inds := [tags.images_in_acquisition, tags.number_of_slices,
      tags.cardiac_number_of_images].filterMap id
    if inds = [] then
      { total_slices := 1,
        detection_method := "fallback_single_slice",
        slice_type := .single_slice }
    else
      { total_slices := maxIndicators inds,
        detection_method := "dicom_tag_heuristics",
        slice_type := .multi_frame_tagged }

/-- `calculate_detection_confidence` (lines 240-258): base 0.5, +0.4 for a
present NumberOfFrames attribute, +0.3 when a buffer of rank >= 3 has
first axis equal to the detected count, -0.3 when a rank > 2 buffer was
still detected as a single slice, clamped by `min(1.0, max(0.1, c))`.
Float64 sums are modelled exactly over the rationals. -/
def calculate_detection_confidence (total_slices : Int) (shape : List Nat)
    (tags : DatasetTags) : ℚ :=
  let base : ℚ := 1/2
  let c1 := if nofPresent tags then base + 2/5 else base
  let c2 := if 3 ≤ shape.length ∧ total_slices = (shape.headD 0 : Int) then c1 + 3/10 else c1
  let c3 := if total_slices = 1 ∧ 2 < shape.length then c2 - 3/10 else c2
  min 1 (max (1/10) c3)

/-- The report returned by `detect_slice_count` (lines 222-228). -/
structure SliceDetectionReport where
  total_slices : Int
  slice_type : SliceType
  detection_method : String
  pixel_array_shape : List Nat
  confidence : ℚ
deriving DecidableEq

/-- `detect_slice_count` (lines 148-228): rule selection followed by the
validation of lines 216-220, which clamps a count exceeding the first
axis of a rank >= 3 buffer and appends "_corrected" to the method name.
The `except` fallback of lines 230-238 is unreachable in the model (tag
values arrive as integers, so the `int(...)` conversions cannot raise). -/
def detect_slice_count (shape : List Nat) (tags : DatasetTags) : SliceDetectionReport :=
  let s := detect_selection shape tags
  let tm : Int × String :=
    if 3 ≤ shape.length ∧ (shape.headD 0 : Int) < s.total_slices then
      ((shape.headD 0 : Int), s.detection_method ++ "_corrected")
    else
      (s.total_slices, s.detection_method)
  { total_slices := tm.1,
    slice_type := s.slice_type,
    detection_method := tm.2,
    pixel_array_shape := shape,
    confidence := calculate_detection_confidence tm.1 shape tags }

/-- A parsed dataset as seen by the pipeline: tag evidence plus the
optional pixel buffer (`hasattr(ds, pixel_array)`, line 50). -/
structure Dataset where
  tags : DatasetTags
  pixel_data : Option PixelArray
deriving DecidableEq

/-- One extracted slice record (lines 85-91).  The constant `format`
field and the `slice_location` / `slice_position` metadata fields of the
source record are omitted: no claim inspects them. -/
structure SliceRecord where
  slice_number : Nat
  image_data : String
deriving DecidableEq

/-- The result object of `extract_dicom_slices` (lines 127-133 on
success, lines 135-146 on failure).  The failure dictionaries of the
source carry no `slices` key; the model renders that as the empty list
with `total_slices_extracted = 0` and `auto_detection_info = none`. -/
structure ExtractResult where
  success : Bool
  slices : List SliceRecord
  total_slices_extracted : Nat
  auto_detection_info : Option SliceDetectionReport
  error : Option String
deriving DecidableEq

/-- Python `pixel_array[i]` along the first axis; `none` models the
IndexError raised on an out-of-range index. -/
def indexFirst : PixelArray → Nat → Option NDData
  | .d2 a, i => (a[i]?).map .d1
  | .d3 a, i => (a[i]?).map .d2
  | .d4 a, i => (a[i]?).map .d3

/-- The slice read in iteration `i` of the extraction loop: the
`multi_frame_4d` branch reads `pixel_array[0, i]` when the buffer is
4-D and `pixel_array[i]` otherwise (line 98); the `multi_frame_3d`
branch always reads `pixel_array[i]` (line 82). -/
def sliceAt (pa : PixelArray) (st : SliceType) (i : Nat) : Option NDData :=
  match st, pa with
  | .multi_frame_4d, .d4 a => (a[0]?).bind (fun t => (t[i]?).map NDData.d2)
  | _, _ => indexFirst pa i

/-- The extraction loop of lines 81-91 / 97-108 run for indices
`0 .. n-1`: an out-of-range index aborts the whole call (IndexError
propagates to the `except` of line 141), a slice whose encoding returns
no bytes is skipped, every other slice appends a record carrying its
loop index as `slice_number`. -/
def buildSlices (encode : Mat → Option String) (pa : PixelArray) (st : SliceType) :
    Nat → Except String (List SliceRecord)
  | 0 => .ok []
  | n + 1 =>
    match buildSlices encode pa st n with
    | .error e => .error e
    | .ok prev =>
      match sliceAt pa st n with
      | none => .error "index out of range"
      | some nd =>
        match convert_to_image encode nd with
        | some b => .ok (prev ++ [{ slice_number := n, image_data := b }])
        | none => .ok prev

/-- `extract_dicom_slices` (lines 14-146), parametrized by the external
image encoder.  A dataset without pixel data reaches the final result
construction with the local `detected_slices` never assigned (it is only
set inside the `hasattr` branch, line 54, but read unconditionally at
line 132): the UnboundLocalError is caught at line 141 and the failure
dictionary of lines 142-146 is returned.  `num_slices_to_process` is
`total_slices` when `max_slices is None` and `min(total_slices,
max_slices)` otherwise (lines 68-76); `range` of a non-positive count is
empty, modelled by `Int.toNat`.  Descriptive metadata string fields
(patient name and so on, lines 28-45) are omitted: no claim inspects
them. -/
def extract_dicom_slices (encode : Mat → Option String) (ds : Dataset)
    (max_slices : Option Int) : ExtractResult :=
  match ds.pixel_data with
  | none =>
    { success := false, slices := [], total_slices_extracted := 0,
      auto_detection_info := none,
      error := some "local variable referenced before assignment" }
  | some pa =>
    let rep := detect_slice_count pa.shape ds.tags
    let num : Int :=
      match max_slices with
      | none => rep.total_slices
      | some m => min rep.total_slices m
    match rep.slice_type with
    | .multi_frame_3d | .multi_frame_4d =>
      match buildSlices encode pa rep.slice_type num.toNat with
      | .error e =>
        { success := false, slices := [], total_slices_extracted := 0,
          auto_detection_info := none, error := some e }
      | .ok ss =>
        { success := true, slices := ss, total_slices_extracted := ss.length,
          auto_detection_info := some rep, error := none }
    | .single_slice =>
      let ss : List SliceRecord :=
        match convert_to_image encode pa.toND with
        | some b => [{ slice_number := 0, image_data := b }]
        | none => []
      { success := true, slices := ss, total_slices_extracted := ss.length,
        auto_detection_info := some rep, error := none }
    | _ =>
      { success := true, slices := [], total_slices_extracted := 0,
        auto_detection_info := some rep, error := none }

/-- The `extract_slices` argument handling of `main` (lines 481-488): a
parsed `max_slices` integer that is zero or negative is replaced by
`None` (process all slices) before `extract_dicom_slices` is called.
The `int()` parse-failure branch (also mapped to `None`) is outside the
model; the argument arrives already parsed. -/
def parse_max_slices : Option Int → Option Int
  | none => none
  | some m => if m ≤ 0 then none else some m

/-- The `extract_slices` command surface: parse, then extract
(lines 490). -/
def cli_extract_slices (encode : Mat → Option String) (ds : Dataset)
    (raw_max : Option Int) : ExtractResult :=
  extract_dicom_slices encode ds (parse_max_slices raw_max)

/-- Result of `convert_dicom_to_png_file` (lines 345-397).  `png_key` is
the preimage of the md5 cache filename, the pair behind the formatted
string `file_path + "_" + slice_index` of line 341; `rendered` is the
normalized 2-D array handed to the PNG writer (`none` when cached or
failed). -/
structure PngResult where
  success : Bool
  png_key : String × Nat
  cached : Bool
  rendered : Option Mat
  error : Option String
deriving DecidableEq

/-- `convert_dicom_to_png_file` (lines 326-397), parametrized by the
external dataset reader (`pydicom.dcmread`; `none` models a read that
raises) and the cache lookup (`os.path.exists` on the derived filename).
The cache filename is derived from the original `slice_index` before any
bounds handling (line 341).  For a 3-D buffer an index at or past the
first axis is replaced by 0 (lines 366-368); indexing an empty first
axis raises (caught at line 393), as does rendering an empty slice
(numpy `max` on a zero-size array) or a buffer of rank other than 2
passed whole to `Image.fromarray` (rank 4 falls into the `else` of line
371).  Negative Python indices are outside the model. -/
def convert_dicom_to_png_file (read_ds : String → Option Dataset)
    (cache_has : String × Nat → Bool) (file_path : String) (slice_index : Nat) : PngResult :=
  let key := (file_path, slice_index)
  if cache_has key then
    { success := true, png_key := key, cached := true, rendered := none, error := none }
  else
    match read_ds file_path with
    | none =>
      { success := false, png_key := key, cached := false, rendered := none,
        error := some "read failure" }
    | some ds =>
      match ds.pixel_data with
      | none =>
        { success := false, png_key := key, cached := false, rendered := none,
          error := some "No pixel data found in DICOM file" }
      | some (.d3 a) =>
        let idx := if a.length ≤ slice_index then 0 else slice_index
        match a[idx]? with
        | none =>
          { success := false, png_key := key, cached := false, rendered := none,
            error := some "index out of range" }
        | some sl =>
          if flatSamples sl = [] then
            { success := false, png_key := key, cached := false, rendered := none,
              error := some "image failure" }
          else
            { success := true, png_key := key, cached := false,
              rendered := some (normalize_pixels sl), error := none }
      | some (.d2 a) =>
        if flatSamples a = [] then
          { success := false, png_key := key, cached := false, rendered := none,
            error := some "image failure" }
        else
          { success := true, png_key := key, cached := false,
            rendered := some (normalize_pixels a), error := none }
      | some (.d4 _) =>
        { success := false, png_key := key, cached := false, rendered := none,
          error := some "image failure" }

/-! Concrete fixtures used by the counterexamples and witnesses. -/

/-- A dataset with no tag attributes set. -/
def emptyTags : DatasetTags := {}

/-- An image encoder that accepts every slice. -/
def encConst : Mat → Option String := fun _ => some "img"

/-- A dataset whose pydicom dataset lacks the `pixel_array` attribute. -/
def dsNoPixel : Dataset := { tags := emptyTags, pixel_data := none }

/-- An encoder that fails exactly on the all-zero 1x1 slice. -/
def encFailOnZero : Mat → Option String := fun a => if a = [[0]] then none else some "img"

/-- A 3-D buffer of two 1x1 slices with samples 0 and 1. -/
def dsTwoSlices : Dataset := { tags := emptyTags, pixel_data := some (.d3 [[[0]], [[1]]]) }

/-- A 3-D buffer of two 1x1 slices with samples 3 and 4. -/
def dsPair : Dataset := { tags := emptyTags, pixel_data := some (.d3 [[[3]], [[4]]]) }

/-- A dataset holding a single 2-D slice (classified single_slice). -/
def dsSingle : Dataset := { tags := emptyTags, pixel_data := some (.d2 [[4]]) }

/-- A NumberOfFrames tag of 10. -/
def tagsNof10 : DatasetTags := { number_of_frames := some 10 }

/-- A NumberOfFrames tag of 2 on a 4-D buffer of shape (2,1,1,1):
detection classifies it as `multi_frame_sequence`. -/
def dsSeq : Dataset :=
  { tags := { number_of_frames := some 2 }, pixel_data := some (.d4 [[[[1]]], [[[2]]]]) }

/-- A 3-D buffer with an empty first axis (zero slices). -/
def dsEmptyVol : Dataset := { tags := emptyTags, pixel_data := some (.d3 []) }

/-- A 3-D buffer with a single 1x2 slice of samples 7 and 300. -/
def dsOneSlice : Dataset := { tags := emptyTags, pixel_data := some (.d3 [[[7, 300]]]) }

/-! ## C1 -/

/-- C1: the claim says a dataset without pixel data extracts to
`success = true` with no slices.  The code instead reaches the result
construction of line 132 with the local `detected_slices` unassigned
(it is only set inside the `hasattr` branch), so the UnboundLocalError
is caught at line 141 and the failure dictionary is returned: the call
reports `success = false` with an error message.  The earlier revision
of the same function (test_dicom.py, lines 86-94) returns
`success = true` with an empty slice list here, so the claim matches
the intent and the unconditional `detected_slices` reference is a
slip. -/
theorem extract_no_pixel_data_yields_failure :
    extract_dicom_slices encConst dsNoPixel none =
      { success := false, slices := [], total_slices_extracted := 0,
        auto_detection_info := none,
        error := some "local variable referenced before assignment" } := by
  rfl

/-! ## C2 -/

/-- C2 counterexample: on the two-slice buffer `dsTwoSlices` with an
encoder that returns no bytes for the first slice, extraction succeeds
with `total_slices_extracted = 1` but the surviving record keeps
`slice_number = 1`, so the slice numbers are not the gap-free range
`0..total_slices_extracted-1` the claim requires. -/
theorem extract_dropped_slice_leaves_gap :
    (extract_dicom_slices encFailOnZero dsTwoSlices none).success = true ∧
    (extract_dicom_slices encFailOnZero dsTwoSlices none).slices.map SliceRecord.slice_number
      = [1] ∧
    (extract_dicom_slices encFailOnZero dsTwoSlices none).slices.map SliceRecord.slice_number
      ≠ List.range
          (extract_dicom_slices encFailOnZero dsTwoSlices none).total_slices_extracted := by
  refine ⟨rfl, rfl, ?_⟩
  decide

/-- Soundness of the extraction loop: a loop over indices `0 .. n-1`
that completes without an IndexError produces records whose slice
numbers are below `n` and strictly increasing. -/
theorem buildSlices_ok_increasing (encode : Mat → Option String) (pa : PixelArray)
    (st : SliceType) :
    ∀ n ss, buildSlices encode pa st n = .ok ss →
      (∀ r ∈ ss, r.slice_number < n) ∧
      (ss.map SliceRecord.slice_number).Pairwise (· < ·) := by
  intro n
  induction n with
  | zero =>
    intro ss h
    simp only [buildSlices, Except.ok.injEq] at h
    subst h
    exact ⟨by simp, List.Pairwise.nil⟩
  | succ n ih =>
    intro ss h
    simp only [buildSlices] at h
    split at h
    · exact absurd h (by simp)
    · rename_i prev hb
      obtain ⟨hp1, hp2⟩ := ih prev hb
      split at h
      · exact absurd h (by simp)
      · rename_i nd hsl
        split at h
        · rename_i b hci
          injection h with h2
          subst h2
          constructor
          · intro r hr
            rcases List.mem_append.mp hr with hr | hr
            · exact Nat.lt_succ_of_lt (hp1 r hr)
            · simp only [List.mem_singleton] at hr
              subst hr
              exact Nat.lt_succ_self n
          · rw [List.map_append]
            refine List.pairwise_append.mpr ⟨hp2, by simp, ?_⟩
            intro x hx y hy
            simp only [List.map_cons, List.map_nil, List.mem_singleton] at hy
            subst hy
            obtain ⟨r, hr, rfl⟩ := List.mem_map.mp hx
            exact hp1 r hr
        · injection h with h2
          subst h2
          exact ⟨fun r hr => Nat.lt_succ_of_lt (hp1 r hr), hp2⟩

/-- C2 (amended): `total_slices_extracted` always equals the length of
the slice list, and the `slice_number` values are strictly increasing,
hence duplicate-free.  They are not always the gap-free range
`0..total_slices_extracted-1`: a slice whose encoding returns no bytes
is skipped while later records keep their original loop index, so a
dropped slice leaves a gap. -/
theorem extract_count_and_slice_numbers (encode : Mat → Option String)
    (ds : Dataset) (max_slices : Option Int) :
    (extract_dicom_slices encode ds max_slices).total_slices_extracted =
      (extract_dicom_slices encode ds max_slices).slices.length ∧
    ((extract_dicom_slices encode ds max_slices).slices.map
      SliceRecord.slice_number).Pairwise (· < ·) := by
  simp only [extract_dicom_slices]
  cases hpd : ds.pixel_data with
  | none => exact ⟨rfl, List.Pairwise.nil⟩
  | some pa =>
    dsimp only
    split
    all_goals try
      (split <;> first
        | exact ⟨rfl, List.Pairwise.nil⟩
        | (rename_i ss heq
           exact ⟨rfl, (buildSlices_ok_increasing _ _ _ _ ss heq).2⟩)
        | exact ⟨rfl, by simp⟩)
    all_goals exact ⟨rfl, List.Pairwise.nil⟩

/-! ## C3 -/

/-- C3 counterexample: `extract_dicom_slices` itself computes
`min(total_slices, max_slices)` (line 74), so calling it directly with
`max_slices = 0` processes zero slices, while `max_slices = None`
processes all detected slices: on the two-slice buffer `dsPair` the
counts are 0 and 2. -/
theorem extract_max_slices_zero_differs_from_none :
    (extract_dicom_slices encConst dsPair (some 0)).total_slices_extracted = 0 ∧
    (extract_dicom_slices encConst dsPair none).total_slices_extracted = 2 := by
  exact ⟨rfl, rfl⟩

/-- C3 (amended): the zero-or-negative-means-all rule lives in the
command-line wrapper, not in `extract_dicom_slices`: `main` replaces a
parsed `max_slices <= 0` by `None` before calling the extractor
(lines 481-488), so the `extract_slices` command behaves identically
for a non-positive `max_slices` and an absent one.  In a direct call
with non-positive `max_slices`, `num_slices_to_process =
min(total_slices, max_slices) <= 0`, so the `multi_frame_3d` and
`multi_frame_4d` loops process no slices; the `single_slice` branch
(lines 110-120) ignores the computed limit and still extracts its one
slice, exactly as with `max_slices` absent. -/
theorem cli_nonpositive_max_slices_processes_all (encode : Mat → Option String)
    (ds : Dataset) (m : Int) (h : m ≤ 0) :
    cli_extract_slices encode ds (some m) = cli_extract_slices encode ds none ∧
    (∀ pa, ds.pixel_data = some pa →
      ((detect_slice_count pa.shape ds.tags).slice_type = SliceType.multi_frame_3d ∨
        (detect_slice_count pa.shape ds.tags).slice_type = SliceType.multi_frame_4d) →
      (extract_dicom_slices encode ds (some m)).slices = [] ∧
      (extract_dicom_slices encode ds (some m)).total_slices_extracted = 0) ∧
    (∀ pa, ds.pixel_data = some pa →
      (detect_slice_count pa.shape ds.tags).slice_type = SliceType.single_slice →
      (extract_dicom_slices encode ds (some m)).slices =
        (extract_dicom_slices encode ds none).slices) := by
  refine ⟨?_, ?_, ?_⟩
  · have hp : parse_max_slices (some m) = none := if_pos h
    unfold cli_extract_slices
    rw [hp]
    rfl
  · intro pa hp hst
    have hnum : (min (detect_slice_count pa.shape ds.tags).total_slices m).toNat = 0 :=
      Int.toNat_of_nonpos (le_trans (min_le_right _ _) h)
    simp only [extract_dicom_slices, hp]
    rcases hst with hst | hst <;> rw [hst] <;> rw [hnum] <;> exact ⟨rfl, rfl⟩
  · intro pa hp hst
    simp only [extract_dicom_slices, hp]
    rw [hst]

theorem cli_nonpositive_max_slices_processes_all_witness :
    (0 : Int) ≤ 0 ∧
    cli_extract_slices encConst dsPair (some 0) = cli_extract_slices encConst dsPair none ∧
    (extract_dicom_slices encConst dsPair (some 0)).slices = [] ∧
    (extract_dicom_slices encConst dsSingle (some 0)).slices =
      (extract_dicom_slices encConst dsSingle none).slices ∧
    (extract_dicom_slices encConst dsSingle (some 0)).total_slices_extracted = 1 := by
  have h1 := cli_nonpositive_max_slices_processes_all encConst dsPair 0 (by decide)
  have h2 := cli_nonpositive_max_slices_processes_all encConst dsSingle 0 (by decide)
  exact ⟨by decide, h1.1,
    (h1.2.1 (PixelArray.d3 [[[3]], [[4]]]) rfl (Or.inl (by decide))).1,
    h2.2.2 (PixelArray.d2 [[4]]) rfl (by decide), by decide⟩

/-! ## C4 -/

/-- C4 counterexample: the claimed branch split and rounding both fail.
On `[[-1, 0]]` no value exceeds 255 but a value is below 0, so the claim
prescribes the min-max stretch `[[0, 255]]`; the code only tests
`max > 255` and applies the unsigned cast, wrapping -1 to 255.  On
`[[0, 3, 510]]` the claim prescribes `round((3-0)/510*255) = round(1.5)
= 2` at the middle position; the cast truncates the scaled value to 1. -/
theorem normalize_not_round_and_wraps_negatives :
    normalize_pixels [[-1, 0]] = [[255, 0]] ∧ ([[255, 0]] : Mat) ≠ [[0, 255]] ∧
    normalize_pixels [[0, 3, 510]] = [[0, 1, 255]] ∧ ([[0, 1, 255]] : Mat) ≠ [[0, 2, 255]] := by
  refine ⟨rfl, ?_, rfl, ?_⟩ <;> decide

/-- Initial value bound for a max fold. -/
theorem le_foldl_max (l : List Int) : ∀ x : Int, x ≤ l.foldl max x := by
  induction l with
  | nil => intro x; simp
  | cons h t ih =>
    intro x
    simp only [List.foldl_cons]
    exact le_trans (le_max_left x h) (ih (max x h))

/-- Member bound for a max fold. -/
theorem mem_le_foldl_max (l : List Int) : ∀ x y : Int, y ∈ l → y ≤ l.foldl max x := by
  induction l with
  | nil => intro x y hy; cases hy
  | cons h t ih =>
    intro x y hy
    rcases List.mem_cons.mp hy with rfl | hy
    · simp only [List.foldl_cons]
      exact le_trans (le_max_right x y) (le_foldl_max t (max x y))
    · exact ih (max x h) y hy

/-- Initial value bound for a min fold. -/
theorem foldl_min_le (l : List Int) : ∀ x : Int, l.foldl min x ≤ x := by
  induction l with
  | nil => intro x; simp
  | cons h t ih =>
    intro x
    simp only [List.foldl_cons]
    exact le_trans (ih (min x h)) (min_le_left x h)

/-- Member bound for a min fold. -/
theorem foldl_min_le_mem (l : List Int) : ∀ x y : Int, y ∈ l → l.foldl min x ≤ y := by
  induction l with
  | nil => intro x y hy; cases hy
  | cons h t ih =>
    intro x y hy
    rcases List.mem_cons.mp hy with rfl | hy
    · simp only [List.foldl_cons]
      exact le_trans (foldl_min_le t (min x y)) (min_le_right x y)
    · exact ih (min x h) y hy

/-- Every sample is bounded by `pixel_array.max()`. -/
theorem le_arrMax_of_mem {a : Mat} {y : Int} (hy : y ∈ flatSamples a) : y ≤ arrMax a := by
  unfold arrMax
  rcases hfl : flatSamples a with _ | ⟨x, xs⟩
  · rw [hfl] at hy
    cases hy
  · rw [hfl] at hy
    rcases List.mem_cons.mp hy with rfl | hy
    · exact le_foldl_max xs y
    · exact mem_le_foldl_max xs x y hy

/-- Every sample is bounded below by `pixel_array.min()`. -/
theorem arrMin_le_of_mem {a : Mat} {y : Int} (hy : y ∈ flatSamples a) : arrMin a ≤ y := by
  unfold arrMin
  rcases hfl : flatSamples a with _ | ⟨x, xs⟩
  · rw [hfl] at hy
    cases hy
  · rw [hfl] at hy
    rcases List.mem_cons.mp hy with rfl | hy
    · exact foldl_min_le xs y
    · exact foldl_min_le_mem xs x y hy

/-- Flattening commutes with an elementwise map. -/
theorem flatSamples_map (g : Int → Int) (a : Mat) :
    flatSamples (a.map (fun row => row.map g)) = (flatSamples a).map g :=
  (List.map_flatten g a).symm

/-- C4 (amended): normalization preserves the shape and lands in
[0, 255], and the branch split follows the maximum alone.  When
`max(in) <= 255` the unsigned cast applies, wrapping every sample
modulo 256 (the identity exactly when all samples already lie in
[0, 255]; samples below 0 wrap instead of being stretched).  When
`max(in) > 255` every output position holds the truncated value
`floor((in - min) * 255 / (max - min))`, not the rounded one. -/
theorem normalize_shape_bounds_identity_stretch (a : Mat) :
    (normalize_pixels a).length = a.length ∧
    (normalize_pixels a).map List.length = a.map List.length ∧
    (∀ x ∈ flatSamples (normalize_pixels a), 0 ≤ x ∧ x ≤ 255) ∧
    (0 ≤ arrMin a → arrMax a ≤ 255 → normalize_pixels a = a) ∧
    (255 < arrMax a →
      normalize_pixels a =
        a.map (fun row => row.map
          (fun x => (x - arrMin a) * 255 / (arrMax a - arrMin a)))) := by
  by_cases hmx : 255 < arrMax a
  · have hn : normalize_pixels a =
        a.map (fun row => row.map
          (fun x => (x - arrMin a) * 255 / (arrMax a - arrMin a))) := by
      unfold normalize_pixels
      rw [if_pos hmx]
    refine ⟨?_, ?_, ?_, ?_, fun _ => hn⟩
    · rw [hn, List.length_map]
    · rw [hn]
      simp
    · intro x hx
      rw [hn, flatSamples_map] at hx
      obtain ⟨y, hy, rfl⟩ := List.mem_map.mp hx
      have h1 : arrMin a ≤ y := arrMin_le_of_mem hy
      have h2 : y ≤ arrMax a := le_arrMax_of_mem hy
      by_cases hd : arrMin a < arrMax a
      · have hdpos : 0 < arrMax a - arrMin a := by omega
        constructor
        · exact Int.ediv_nonneg (mul_nonneg (by omega) (by norm_num)) (le_of_lt hdpos)
        · calc (y - arrMin a) * 255 / (arrMax a - arrMin a)
              ≤ (arrMax a - arrMin a) * 255 / (arrMax a - arrMin a) :=
                Int.ediv_le_ediv hdpos (mul_le_mul_of_nonneg_right (by omega) (by norm_num))
            _ = 255 := by
                have hne : arrMax a - arrMin a ≠ 0 := by omega
                exact Int.mul_ediv_cancel_left 255 hne
      · have hz : y - arrMin a = 0 := by omega
        rw [hz]
        norm_num
    · intro _ hle
      exact absurd hle (by omega)
  · have hn : normalize_pixels a = a.map (fun row => row.map (fun x => x % 256)) := by
      unfold normalize_pixels
      rw [if_neg hmx]
    refine ⟨?_, ?_, ?_, ?_, fun hc => absurd hc hmx⟩
    · rw [hn, List.length_map]
    · rw [hn]
      simp
    · intro x hx
      rw [hn, flatSamples_map] at hx
      obtain ⟨y, hy, rfl⟩ := List.mem_map.mp hx
      refine ⟨Int.emod_nonneg y (by norm_num), ?_⟩
      have := Int.emod_lt_of_pos y (show (0 : Int) < 256 by norm_num)
      omega
    · intro hmn hle
      rw [hn]
      have hrow : ∀ row ∈ a, row.map (fun x => x % 256) = row := by
        intro row hrowa
        have h1 : row.map (fun x => x % 256) = row.map id := by
          refine List.map_congr_left ?_
          intro y hyr
          have hym : y ∈ flatSamples a := List.mem_flatten.mpr ⟨row, hrowa, hyr⟩
          have hy0 : 0 ≤ y := le_trans hmn (arrMin_le_of_mem hym)
          have hy255 : y ≤ arrMax a := le_arrMax_of_mem hym
          exact Int.emod_eq_of_lt hy0 (by omega)
        rw [h1, List.map_id]
      have h2 : a.map (fun row => row.map (fun x => x % 256)) = a.map id :=
        List.map_congr_left (fun row hrowa => hrow row hrowa)
      rw [h2, List.map_id]

theorem normalize_shape_bounds_identity_stretch_witness :
    (255 : Int) < arrMax [[0, 300]] ∧
    normalize_pixels [[0, 300]] =
      ([[0, 300]] : Mat).map (fun row => row.map
        (fun x => (x - arrMin [[0, 300]]) * 255 / (arrMax [[0, 300]] - arrMin [[0, 300]]))) ∧
    (0 : Int) ≤ arrMin [[5, 9]] ∧ arrMax [[5, 9]] ≤ 255 ∧
    normalize_pixels [[5, 9]] = [[5, 9]] :=
  ⟨by decide,
    (normalize_shape_bounds_identity_stretch [[0, 300]]).2.2.2.2 (by decide),
    by decide, by decide,
    (normalize_shape_bounds_identity_stretch [[5, 9]]).2.2.2.1 (by decide) (by decide)⟩

/-! ## C5 -/

/-- A max fold over elements all equal to the initial value stays there. -/
theorem foldl_max_const (v : Int) : ∀ l : List Int, (∀ y ∈ l, y = v) → l.foldl max v = v := by
  intro l
  induction l with
  | nil => intro _; rfl
  | cons h t ih =>
    intro hall
    have hh : h = v := hall h (List.mem_cons_self h t)
    subst hh
    simp only [List.foldl_cons, max_self]
    exact ih (fun y hy => hall y (List.mem_cons_of_mem h hy))

/-- A min fold over elements all equal to the initial value stays there. -/
theorem foldl_min_const (v : Int) : ∀ l : List Int, (∀ y ∈ l, y = v) → l.foldl min v = v := by
  intro l
  induction l with
  | nil => intro _; rfl
  | cons h t ih =>
    intro hall
    have hh : h = v := hall h (List.mem_cons_self h t)
    subst hh
    simp only [List.foldl_cons, min_self]
    exact ih (fun y hy => hall y (List.mem_cons_of_mem h hy))

/-- On a nonempty flat array, `pixel_array.max()` is the common value. -/
theorem arrMax_flat {a : Mat} {v : Int} (hflat : ∀ x ∈ flatSamples a, x = v)
    (hne : flatSamples a ≠ []) : arrMax a = v := by
  unfold arrMax
  cases hfl : flatSamples a with
  | nil => exact absurd hfl hne
  | cons x xs =>
    have hx : x = v := hflat x (by rw [hfl]; exact List.mem_cons_self x xs)
    subst hx
    exact foldl_max_const x xs (fun y hy => hflat y (by rw [hfl]; exact List.mem_cons_of_mem x hy))

/-- On a nonempty flat array, `pixel_array.min()` is the common value. -/
theorem arrMin_flat {a : Mat} {v : Int} (hflat : ∀ x ∈ flatSamples a, x = v)
    (hne : flatSamples a ≠ []) : arrMin a = v := by
  unfold arrMin
  cases hfl : flatSamples a with
  | nil => exact absurd hfl hne
  | cons x xs =>
    have hx : x = v := hflat x (by rw [hfl]; exact List.mem_cons_self x xs)
    subst hx
    exact foldl_min_const x xs (fun y hy => hflat y (by rw [hfl]; exact List.mem_cons_of_mem x hy))

/-- C5: a flat 2-D array (every sample equal to `v`, any integer value,
also above 255) normalizes without error and to a constant-valued array
of the same shape.  At or below 255 the cast branch applies and the
constant is `v % 256` (`v` itself for `v` in [0,255]); above 255 the
stretch computes `0.0/0.0` in the source, which numpy only warns about
(no exception), and the NaN-to-uint8 cast yields the deterministic
platform constant, 0 as modelled (the model's division-by-zero
convention, matching x86). -/
theorem normalize_flat_constant (a : Mat) (v : Int)
    (hflat : ∀ x ∈ flatSamples a, x = v) :
    (normalize_pixels a).length = a.length ∧
    (normalize_pixels a).map List.length = a.map List.length ∧
    ∀ x ∈ flatSamples (normalize_pixels a), x = if 255 < v then 0 else v % 256 := by
  refine ⟨?_, ?_, ?_⟩
  · simp only [normalize_pixels]
    split <;> rw [List.length_map]
  · simp only [normalize_pixels]
    split <;> simp
  · intro x hx
    by_cases hmx : 255 < arrMax a
    · have hn : normalize_pixels a =
          a.map (fun row => row.map
            (fun t => (t - arrMin a) * 255 / (arrMax a - arrMin a))) := by
        unfold normalize_pixels
        rw [if_pos hmx]
      rw [hn, flatSamples_map] at hx
      obtain ⟨y, hy, rfl⟩ := List.mem_map.mp hx
      have hne : flatSamples a ≠ [] := List.ne_nil_of_mem hy
      have hmax : arrMax a = v := arrMax_flat hflat hne
      have hmin : arrMin a = v := arrMin_flat hflat hne
      have hyv : y = v := hflat y hy
      rw [if_pos (hmax ▸ hmx), hyv, hmin, sub_self]
      simp
    · have hn : normalize_pixels a = a.map (fun row => row.map (fun t => t % 256)) := by
        unfold normalize_pixels
        rw [if_neg hmx]
      rw [hn, flatSamples_map] at hx
      obtain ⟨y, hy, rfl⟩ := List.mem_map.mp hx
      have hne : flatSamples a ≠ [] := List.ne_nil_of_mem hy
      have hmax : arrMax a = v := arrMax_flat hflat hne
      have hyv : y = v := hflat y hy
      rw [if_neg (hmax ▸ hmx), hyv]

theorem normalize_flat_constant_witness :
    (∀ x ∈ flatSamples [[300, 300]], x = (300 : Int)) ∧
    (∀ x ∈ flatSamples (normalize_pixels [[300, 300]]),
      x = if 255 < (300 : Int) then 0 else 300 % 256) ∧
    (∀ x ∈ flatSamples [[7, 7]], x = (7 : Int)) ∧
    (∀ x ∈ flatSamples (normalize_pixels [[7, 7]]),
      x = if 255 < (7 : Int) then 0 else 7 % 256) :=
  ⟨by decide, (normalize_flat_constant [[300, 300]] 300 (by decide)).2.2,
    by decide, (normalize_flat_constant [[7, 7]] 7 (by decide)).2.2⟩

/-! ## C6 -/

/-- C6 counterexample: for a 4-D buffer of shape (3,7,4,4) with no
NumberOfFrames tag, the claim prescribes
`total_slices = max(shape[0], shape[1]) = 7`; the buffer-bound
validation of lines 216-220 clamps the count to `shape[0] = 3` and
appends "_corrected" to the method name. -/
theorem detect_4d_clamped_below_max :
    (detect_slice_count [3, 7, 4, 4] emptyTags).total_slices = 3 ∧
    (detect_slice_count [3, 7, 4, 4] emptyTags).total_slices ≠ max 3 7 ∧
    (detect_slice_count [3, 7, 4, 4] emptyTags).detection_method
      = "4d_array_analysis_corrected" := by
  refine ⟨rfl, ?_, rfl⟩
  decide

/-- C6 (amended): the rules do apply in fixed first-wins order, but two
details differ from the claim.  A present NumberOfFrames tag wins on
Python truthiness, so any nonzero value (also a negative one) takes the
first rule, and the later rules require the tag absent or zero.  And
the selected count is subject to the buffer-bound post-check: when the
shape has at least 3 dimensions and the selected count exceeds
`shape[0]`, the reported count is `shape[0]` and the method name gains
"_corrected"; in particular a tag larger than `shape[0]` does not
survive to the report, and a 4-D buffer always reports
`total_slices = shape[0]`. -/
theorem detect_rule_order_with_clamp (shape : List Nat) (tags : DatasetTags) :
    (∀ n : Int, tags.number_of_frames = some n → n ≠ 0 →
      (detect_slice_count shape tags).slice_type =
        (if shape.length = 3 then SliceType.multi_frame_3d
         else SliceType.multi_frame_sequence) ∧
      (detect_slice_count shape tags).total_slices =
        (if 3 ≤ shape.length ∧ (shape.headD 0 : Int) < n then (shape.headD 0 : Int) else n) ∧
      ((detect_slice_count shape tags).detection_method = "number_of_frames_tag" ∨
        (detect_slice_count shape tags).detection_method = "number_of_frames_tag_corrected")) ∧
    (nofTruthy tags = false → shape.length = 4 →
      (detect_slice_count shape tags).total_slices = (shape.headD 0 : Int) ∧
      (detect_slice_count shape tags).slice_type = SliceType.multi_frame_4d) ∧
    (nofTruthy tags = false → shape.length = 3 →
      (detect_slice_count shape tags).total_slices = (shape.headD 0 : Int) ∧
      (detect_slice_count shape tags).slice_type = SliceType.multi_frame_3d ∧
      (detect_slice_count shape tags).detection_method = "3d_array_analysis") ∧
    (nofTruthy tags = false → shape.length = 2 →
      (detect_slice_count shape tags).total_slices = 1 ∧
      (detect_slice_count shape tags).slice_type = SliceType.single_slice ∧
      (detect_slice_count shape tags).detection_method = "2d_array_single_slice") := by
  refine ⟨?_, ?_, ?_, ?_⟩
  · intro n hn hnz
    have ht : nofTruthy tags = true := by simp [nofTruthy, hn, hnz]
    have hs : detect_selection shape tags =
        { total_slices := n, detection_method := "number_of_frames_tag",
          slice_type := if shape.length = 3 then SliceType.multi_frame_3d
            else SliceType.multi_frame_sequence } := by
      unfold detect_selection
      rw [ht, hn]
      exact rfl
    by_cases hc : 3 ≤ shape.length ∧ (shape.headD 0 : Int) < n
    · refine ⟨?_, ?_, ?_⟩
      · simp only [detect_slice_count, hs]
      · simp only [detect_slice_count, hs]
        rw [if_pos hc, if_pos hc]
      · simp only [detect_slice_count, hs]
        rw [if_pos hc]
        exact Or.inr rfl
    · refine ⟨?_, ?_, ?_⟩
      · simp only [detect_slice_count, hs]
      · simp only [detect_slice_count, hs]
        rw [if_neg hc, if_neg hc]
      · simp only [detect_slice_count, hs]
        rw [if_neg hc]
        exact Or.inl rfl
  · intro hf h4
    by_cases hlt : shape.headD 0 < shape.getD 1 0
    · have hs : detect_selection shape tags =
          { total_slices := (shape.getD 1 0 : Int),
            detection_method := "4d_array_analysis",
            slice_type := SliceType.multi_frame_4d } := by
        unfold detect_selection
        rw [hf, h4, if_pos hlt]
        exact rfl
      have hc : 3 ≤ shape.length ∧ (shape.headD 0 : Int) < (shape.getD 1 0 : Int) :=
        ⟨by omega, by exact_mod_cast hlt⟩
      refine ⟨?_, ?_⟩
      · simp only [detect_slice_count, hs]
        rw [if_pos hc]
      · simp only [detect_slice_count, hs]
    · have hs : detect_selection shape tags =
          { total_slices := (shape.headD 0 : Int),
            detection_method := "4d_array_analysis",
            slice_type := SliceType.multi_frame_4d } := by
        unfold detect_selection
        rw [hf, h4, if_neg hlt]
        exact rfl
      have hc : ¬(3 ≤ shape.length ∧ (shape.headD 0 : Int) < (shape.headD 0 : Int)) :=
        fun h => lt_irrefl _ h.2
      refine ⟨?_, ?_⟩
      · simp only [detect_slice_count, hs]
        rw [if_neg hc]
      · simp only [detect_slice_count, hs]
  · intro hf h3
    have hs : detect_selection shape tags =
        { total_slices := (shape.headD 0 : Int),
          detection_method := "3d_array_analysis",
          slice_type := SliceType.multi_frame_3d } := by
      unfold detect_selection
      rw [hf, h3]
      exact rfl
    have hc : ¬(3 ≤ shape.length ∧ (shape.headD 0 : Int) < (shape.headD 0 : Int)) :=
      fun h => lt_irrefl _ h.2
    refine ⟨?_, ?_, ?_⟩
    · simp only [detect_slice_count, hs]
      rw [if_neg hc]
    · simp only [detect_slice_count, hs]
    · simp only [detect_slice_count, hs]
      rw [if_neg hc]
  · intro hf h2
    have hs : detect_selection shape tags =
        { total_slices := 1,
          detection_method := "2d_array_single_slice",
          slice_type := SliceType.single_slice } := by
      unfold detect_selection
      rw [hf, h2]
      exact rfl
    have hc : ¬(3 ≤ shape.length ∧ (shape.headD 0 : Int) < (1 : Int)) := by
      rw [h2]
      simp
    refine ⟨?_, ?_, ?_⟩
    · simp only [detect_slice_count, hs]
      rw [if_neg hc]
    · simp only [detect_slice_count, hs]
    · simp only [detect_slice_count, hs]
      rw [if_neg hc]

theorem detect_rule_order_with_clamp_witness :
    nofTruthy emptyTags = false ∧
    (detect_slice_count [5, 64, 64] emptyTags).total_slices = 5 ∧
    (detect_slice_count [5, 64, 64] emptyTags).slice_type = SliceType.multi_frame_3d ∧
    (detect_slice_count [5, 64, 64] emptyTags).detection_method = "3d_array_analysis" := by
  have h := (detect_rule_order_with_clamp [5, 64, 64] emptyTags).2.2.1 rfl rfl
  exact ⟨rfl, by simpa using h.1, h.2.1, h.2.2⟩

/-! ## C9 -/

/-- C9: when the detection report classifies the buffer as
`multi_frame_sequence` or `multi_frame_tagged`, the slice-processing
chain of lines 79-120 has no matching branch, so extraction returns
`success = true` with an empty slice list and
`total_slices_extracted = 0` regardless of the detected count. -/
theorem extract_sequence_or_tagged_renders_nothing (encode : Mat → Option String)
    (ds : Dataset) (max_slices : Option Int) (pa : PixelArray)
    (hp : ds.pixel_data = some pa)
    (h : (detect_slice_count pa.shape ds.tags).slice_type = SliceType.multi_frame_sequence ∨
      (detect_slice_count pa.shape ds.tags).slice_type = SliceType.multi_frame_tagged) :
    (extract_dicom_slices encode ds max_slices).success = true ∧
    (extract_dicom_slices encode ds max_slices).slices = [] ∧
    (extract_dicom_slices encode ds max_slices).total_slices_extracted = 0 := by
  simp only [extract_dicom_slices, hp]
  rcases h with h | h <;> rw [h] <;> exact ⟨rfl, rfl, rfl⟩

theorem extract_sequence_or_tagged_renders_nothing_witness :
    dsSeq.pixel_data = some (PixelArray.d4 [[[[1]]], [[[2]]]]) ∧
    (detect_slice_count (PixelArray.d4 [[[[1]]], [[[2]]]]).shape dsSeq.tags).slice_type
      = SliceType.multi_frame_sequence ∧
    (detect_slice_count (PixelArray.d4 [[[[1]]], [[[2]]]]).shape dsSeq.tags).total_slices = 2 ∧
    (extract_dicom_slices encConst dsSeq none).success = true ∧
    (extract_dicom_slices encConst dsSeq none).slices = [] ∧
    (extract_dicom_slices encConst dsSeq none).total_slices_extracted = 0 := by
  have h := extract_sequence_or_tagged_renders_nothing encConst dsSeq none
    (PixelArray.d4 [[[[1]]], [[[2]]]]) rfl (Or.inl (by decide))
  exact ⟨rfl, by decide, by decide, h.1, h.2.1, h.2.2⟩

/-! ## C7 -/

/-- C7: on a buffer of rank at least 3, whenever the rule-selection
count exceeds the first axis, `detect_slice_count` clamps the reported
count to `shape[0]` and appends "_corrected" to the method name; and the
reported count never exceeds `shape[0]` for such buffers. -/
theorem detect_clamps_to_first_axis (shape : List Nat) (tags : DatasetTags)
    (h3 : 3 ≤ shape.length) :
    ((shape.headD 0 : Int) < (detect_selection shape tags).total_slices →
      (detect_slice_count shape tags).total_slices = (shape.headD 0 : Int) ∧
      (detect_slice_count shape tags).detection_method =
        (detect_selection shape tags).detection_method ++ "_corrected") ∧
    (detect_slice_count shape tags).total_slices ≤ (shape.headD 0 : Int) := by
  simp only [detect_slice_count]
  constructor
  · intro hlt
    rw [if_pos ⟨h3, hlt⟩]
    exact ⟨rfl, rfl⟩
  · by_cases hc : (shape.headD 0 : Int) < (detect_selection shape tags).total_slices
    · rw [if_pos ⟨h3, hc⟩]
    · rw [if_neg (fun hand => hc hand.2)]
      exact not_lt.mp hc

theorem detect_clamps_to_first_axis_witness :
    3 ≤ ([8, 64, 64] : List Nat).length ∧
    (8 : Int) < (detect_selection [8, 64, 64] tagsNof10).total_slices ∧
    (detect_slice_count [8, 64, 64] tagsNof10).total_slices = 8 ∧
    (detect_slice_count [8, 64, 64] tagsNof10).detection_method
      = "number_of_frames_tag" ++ "_corrected" ∧
    (detect_slice_count [8, 64, 64] tagsNof10).total_slices ≤ 8 := by
  have h := detect_clamps_to_first_axis [8, 64, 64] tagsNof10 (by decide)
  have h1 := h.1 (by decide)
  exact ⟨by decide, by decide, by simpa using h1.1, by simpa using h1.2, by simpa using h.2⟩

/-! ## C8 -/

/-- C8: the detection confidence equals the clamped additive score,
base 0.5, +0.4 for a present frame-count attribute, +0.3 when a rank
at least 3 buffer has first axis equal to the count, -0.3 when a rank
above 2 buffer still yields count 1, clamped to [0.1, 1.0]; and the
returned value always lies in [0.1, 1.0]. -/
theorem confidence_formula_and_bounds (t : Int) (shape : List Nat) (tags : DatasetTags) :
    calculate_detection_confidence t shape tags =
      min 1 (max (1 / 10)
        (1 / 2 + (if nofPresent tags then (2 : ℚ) / 5 else 0)
          + (if 3 ≤ shape.length ∧ t = (shape.headD 0 : Int) then (3 : ℚ) / 10 else 0)
          - (if t = 1 ∧ 2 < shape.length then (3 : ℚ) / 10 else 0))) ∧
    1 / 10 ≤ calculate_detection_confidence t shape tags ∧
    calculate_detection_confidence t shape tags ≤ 1 := by
  have hf : calculate_detection_confidence t shape tags =
      min 1 (max (1 / 10)
        (1 / 2 + (if nofPresent tags then (2 : ℚ) / 5 else 0)
          + (if 3 ≤ shape.length ∧ t = (shape.headD 0 : Int) then (3 : ℚ) / 10 else 0)
          - (if t = 1 ∧ 2 < shape.length then (3 : ℚ) / 10 else 0))) := by
    simp only [calculate_detection_confidence]
    split_ifs <;> norm_num
  refine ⟨hf, ?_, ?_⟩
  · rw [hf]
    exact le_min (by norm_num) (le_max_left _ _)
  · rw [hf]
    exact min_le_left _ _

/-! ## C10 -/

/-- C10 counterexample: the claim quantifies over every 3-D buffer, but
for a buffer with an empty first axis (shape (0,0,0), `dsEmptyVol`) the
substituted index 0 is itself out of range, `pixel_array[0]` raises, and
the call reports `success = false` instead of rendering a slice. -/
theorem convert_png_empty_volume_fails :
    (convert_dicom_to_png_file (fun _ => some dsEmptyVol) (fun _ => false)
        "scan.dcm" 5).success = false := by
  rfl

/-- C10 (amended): for every 3-D buffer with at least one slice (and
nonempty slice content), an uncached call with
`slice_index >= shape[0]` does not fail: the index is silently replaced
by 0 and the first slice is rendered with `success = true`, while the
cache key is still derived from the original out-of-range index. -/
theorem convert_png_out_of_range_renders_first (read_ds : String → Option Dataset)
    (cache_has : String × Nat → Bool) (fp : String) (idx : Nat)
    (ds : Dataset) (a : List Mat)
    (hr : read_ds fp = some ds) (hp : ds.pixel_data = some (PixelArray.d3 a))
    (hne : a ≠ []) (hidx : a.length ≤ idx)
    (hcache : cache_has (fp, idx) = false)
    (hrow : flatSamples (a.headD []) ≠ []) :
    convert_dicom_to_png_file read_ds cache_has fp idx =
      { success := true, png_key := (fp, idx), cached := false,
        rendered := some (normalize_pixels (a.headD [])), error := none } := by
  match a, hne with
  | r :: rest, _ =>
    simp only [convert_dicom_to_png_file, hcache, hr, hp]
    rw [if_pos hidx]
    simp only [List.getElem?_cons_zero, List.headD_cons] at *
    rw [if_neg hrow]
    exact rfl

theorem convert_png_out_of_range_renders_first_witness :
    ([[[7, 300]]] : List Mat).length ≤ 5 ∧
    convert_dicom_to_png_file (fun _ => some dsOneSlice) (fun _ => false) "ct.dcm" 5 =
      { success := true, png_key := ("ct.dcm", 5), cached := false,
        rendered := some (normalize_pixels (([[[7, 300]]] : List Mat).headD [])),
        error := none } :=
  ⟨by decide,
    convert_png_out_of_range_renders_first (fun _ => some dsOneSlice) (fun _ => false)
      "ct.dcm" 5 dsOneSlice [[[7, 300]]] rfl rfl (by decide) (by decide) rfl (by decide)⟩

end DicomHelper
